import Mathlib

/-!
Verification development for the cedar build-cost-reporting core.

This file gives a shallow embedding, in Lean 4, of the cost-reporting
code (the Evergreen distro cost fetcher in `evergreen/distros.go`, the
scheduler and on-demand export in `operations/cost.go`, and the
`CostReport` / `CedarConfig` persistence model), and proves the spec's
claims about it.

Modelling conventions:
* Go errors (`github.com/pkg/errors`) become the inductive `GoErr`:
  `errors.New` is `GoErr.msg`, `errors.Wrap(err, ctx)` on a non-nil
  error is `GoErr.wrap ctx err` (preserving the cause), the mgo
  not-found sentinel is `GoErr.notFound`, and the grip multi-error
  catcher resolves to `GoErr.combined`.  `errors.Wrap(nil, ctx)`
  returns nil in Go, which the models reflect by only wrapping actual
  errors.
* Fallible remote calls become explicit parameters: the body of an HTTP
  response is passed in as data (`link`, request error, decoded value),
  and a per-distro lookup is a function `String → Except GoErr DistroCost`.
* The concurrent worker pool of `getDistroCosts` is sequentialized over
  an explicit processing order; the random shuffle and the worker
  completion order are both captured by that order parameter, and the
  order-insensitivity claims are proved by quantifying over it.
* Go `time.Duration` fields are durations; `SumTimeTaken` is kept as an
  integer (nanoseconds).  Go floating-point cost fields carry no
  arithmetic inside the fetcher, and the pricing arithmetic of the
  report builder is out of the inspected core (spec section 9), so cost
  values are carried as exact rationals.
-/

namespace CedarCost

/-- Model of Go error values as built by `github.com/pkg/errors` and the
grip error catcher: a base message, a wrapping that preserves its cause,
the mgo not-found sentinel, and a combined multi-error. -/
inductive GoErr where
  | msg (s : String)
  | wrap (context : String) (cause : GoErr)
  | notFound
  | combined (es : List GoErr)

/-- Model of `db.ResultsNotFound`: recognizes the mgo not-found sentinel. -/
def ResultsNotFound : Option GoErr → Bool
  | some GoErr.notFound => true
  | _ => false

/-- The root cause of a wrapped error chain (what `errors.Cause` recovers). -/
def GoErr.rootCause : GoErr → GoErr
  | GoErr.wrap _ cause => cause.rootCause
  | e => e

/-- Model of `evergreen.Distro`: information for a single distro (`distros.go`). -/
structure Distro where
  DistroID : String
deriving Repr, DecidableEq

/-- Model of `evergreen.DistroCost`: full cost and provider information for a
distro (`distros.go`).  `SumTimeTaken` is a `time.Duration` in
nanoseconds; `SumEstimatedCost` (a Go float64 never computed on inside
the fetcher) is carried as an exact rational. -/
structure DistroCost where
  DistroID : String
  Provider : String
  InstanceType : String
  SumTimeTaken : Int
  SumEstimatedCost : Rat
deriving Repr, DecidableEq

/-- Model of `Client.GetDistros` (`distros.go`): given the raw response of
`c.get(ctx, "/distros")` — a pagination `link`, a request error, and the
JSON-decoded body — it rejects any paginated response first, then a
request error (wrapped), then returns the decoded distro list. -/
def GetDistros (link : String) (reqErr : Option GoErr)
    (decoded : Except GoErr (List Distro)) : Except GoErr (List Distro) :=
  if link ≠ "" then Except.error (GoErr.msg "/distros should not be a paginated route")
  else match reqErr with
    | some e => Except.error (GoErr.wrap "error in getting distros" e)
    | none => decoded

/-- Model of `Client.GetDistroCost` (`distros.go`): same shape as `GetDistros`
for the `/cost/distro/` route: pagination check first, then the request
error, then the decoded `DistroCost`. -/
def GetDistroCost (link : String) (reqErr : Option GoErr)
    (decoded : Except GoErr DistroCost) : Except GoErr DistroCost :=
  if link ≠ "" then Except.error (GoErr.msg "/cost/distro should not be a paginated route")
  else match reqErr with
    | some e => Except.error (GoErr.wrap "error in GetDistroCost" e)
    | none => decoded

/-- Model of `Client.getDistroIDs` (`distros.go`): maps a `GetDistros` result to
the list of distro IDs, wrapping a failure. -/
def getDistroIDs (distrosRes : Except GoErr (List Distro)) :
    Except GoErr (List String) :=
  match distrosRes with
  | Except.error e => Except.error (GoErr.wrap "error getting distros ids" e)
  | Except.ok ds => Except.ok (ds.map Distro.DistroID)

/-- The errors accumulated by the grip catcher inside `getDistroCosts`:
one wrapped error per distro whose lookup failed, in processing order.
(`catcher.Add(errors.Wrap(err, ...))` is a no-op when `err` is nil.) -/
def fetchErrors (order : List String)
    (lookup : String → Except GoErr DistroCost) : List GoErr :=
  order.filterMap fun id =>
    match lookup id with
    | Except.error e =>
        some (GoErr.wrap "error when getting distro cost data from Evergreen" e)
    | Except.ok _ => none

/-- The records collected from the `costs` channel of `getDistroCosts`
and retained by the fan-in filter: one record per distro whose lookup
succeeded with strictly positive `SumTimeTaken`, in processing order. -/
def fetchResults (order : List String)
    (lookup : String → Except GoErr DistroCost) : List DistroCost :=
  order.filterMap fun id =>
    match lookup id with
    | Except.ok dc => if dc.SumTimeTaken > 0 then some dc else none
    | Except.error _ => none

/-- Model of `Client.getDistroCosts` (`distros.go`), sequentialized over an
explicit processing order (the random shuffle composed with worker
completion order).  Workers drain the whole order, accumulating every
lookup error in the catcher and forwarding every non-nil record; the
fan-in loop keeps records with strictly positive `SumTimeTaken`; after
the pool drains, any accumulated error discards the whole result set
and the combined error is returned. -/
def getDistroCosts (order : List String)
    (lookup : String → Except GoErr DistroCost) :
    Option (List DistroCost) × Option GoErr :=
  let errs := fetchErrors order lookup
  if errs.isEmpty then (some (fetchResults order lookup), none)
  else (none, some (GoErr.combined errs))

/-- Model of `Client.GetEvergreenDistrosData` (`distros.go`): fetches the distro
ID list, then the per-distro costs over a shuffle of that list; each
stage's failure is wrapped with its own context and returned with a nil
result list. -/
def GetEvergreenDistrosData (distrosRes : Except GoErr (List Distro))
    (shuffle : List String → List String)
    (lookup : String → Except GoErr DistroCost) :
    Option (List DistroCost) × Option GoErr :=
  match getDistroIDs distrosRes with
  | Except.error e =>
      (none, some (GoErr.wrap "error in getting distroID in GetEvergreenDistrosData" e))
  | Except.ok ids =>
      match getDistroCosts (shuffle ids) lookup with
      | (none, some e) =>
          (none, some (GoErr.wrap "error in getting distro costs in GetEvergreenDistrosData" e))
      | r => r

/-- Wall-clock time in the process-local zone, as the calendar fields Go
exposes (`t.Year()`, `t.Month()`, ..., `t.Second()`).  All times the
claims touch live in one zone (`time.Local`), so the zone is left
implicit. -/
structure GoTime where
  year : Nat
  month : Nat
  day : Nat
  hour : Nat
  minute : Nat
  second : Nat
deriving Repr, DecidableEq

/-- Zero-pad a number to width two, as Go's `01`/`02`/`15`/`04`/`05`
format verbs do. -/
def pad2 (n : Nat) : String :=
  if n < 10 then "0" ++ toString n else toString n

/-- Zero-pad a year to width four, as Go's `2006` format verb does. -/
def pad4 (n : Nat) : String :=
  if n < 10 then "000" ++ toString n
  else if n < 100 then "00" ++ toString n
  else if n < 1000 then "0" ++ toString n
  else toString n

/-- Go's default `time.Time` rendering (layout
`2006-01-02 15:04:05 -0700 MST`), used by `fmt.Sprintf("%s", t)`.  The
offset and zone abbreviation are a fixed function of the one implicit
local zone, so they are modelled as a fixed suffix. -/
def goTimeString (t : GoTime) : String :=
  pad4 t.year ++ "-" ++ pad2 t.month ++ "-" ++ pad2 t.day ++ " " ++
    pad2 t.hour ++ ":" ++ pad2 t.minute ++ ":" ++ pad2 t.second ++ " +0000 Local"

/-- Model of `time.Date(t.Year(), t.Month(), t.Day(), t.Hour(), 0, 0, 0, time.Local)`
from `collectLoop` (`operations/cost.go`): the tick time truncated to
the hour in local time. -/
def truncateToHour (t : GoTime) : GoTime :=
  { t with minute := 0, second := 0 }

/-- The job identity computed by each tick of `collectLoop`
(`operations/cost.go`): `id := fmt.Sprintf("brc-%s", lastHour)` where
`lastHour` is the tick time truncated to the hour. -/
def collectJobID (t : GoTime) : String :=
  "brc-" ++ goTimeString (truncateToHour t)

/-- Model of `t.Format("2006-01-02-15-04")` from `writeCostReport`
(`operations/cost.go`). -/
def formatFileDate (t : GoTime) : String :=
  pad4 t.year ++ "-" ++ pad2 t.month ++ "-" ++ pad2 t.day ++ "-" ++
    pad2 t.hour ++ "-" ++ pad2 t.minute

/-- Go's `time.Duration.String()` for whole-second durations (the cost
window durations are whole seconds): hours printed when nonzero, then
minutes whenever hours are printed or minutes are nonzero, then seconds
always (`2h` renders `2h0m0s`, `90m` renders `1h30m0s`, `45s` renders
`45s`, `0` renders `0s`). -/
def durationString (secs : Nat) : String :=
  let h := secs / 3600
  let m := secs % 3600 / 60
  let s := secs % 60
  if h > 0 then toString h ++ "h" ++ toString m ++ "m" ++ toString s ++ "s"
  else if m > 0 then toString m ++ "m" ++ toString s ++ "s"
  else toString s ++ "s"

/-- Gregorian leap-year rule, as Go's `time` package implements it. -/
def isLeapYear (y : Nat) : Bool :=
  (y % 4 == 0 && y % 100 != 0) || y % 400 == 0

/-- Days in a month of the proleptic Gregorian calendar. -/
def daysInMonth (y m : Nat) : Nat :=
  if m == 2 then (if isLeapYear y then 29 else 28)
  else if m == 4 || m == 6 || m == 9 || m == 11 then 30
  else 31

/-- Advance a calendar date by a number of days, one day at a time. -/
def addDaysAux : Nat → Nat × Nat × Nat → Nat × Nat × Nat
  | 0, ymd => ymd
  | Nat.succ k, (y, m, d) =>
      if d + 1 > daysInMonth y m then
        if m == 12 then addDaysAux k (y + 1, 1, 1)
        else addDaysAux k (y, m + 1, 1)
      else addDaysAux k (y, m, d + 1)

/-- Model of `t.Add(d)` for a whole-second duration: Go time arithmetic on the
calendar fields, carrying seconds into minutes, hours and days. -/
def GoTime.addSeconds (t : GoTime) (secs : Nat) : GoTime :=
  let totalSec := t.second + secs
  let totalMin := t.minute + totalSec / 60
  let totalHour := t.hour + totalMin / 60
  let ymd := addDaysAux (totalHour / 24) (t.year, t.month, t.day)
  { year := ymd.1, month := ymd.2.1, day := ymd.2.2,
    hour := totalHour % 24, minute := totalMin % 60, second := totalSec % 60 }

/-- Model of `model.CostReportMetadata` (report struct file): time information on
the overall report. -/
structure CostReportMetadata where
  Generated : GoTime
  Begin : GoTime
  End : GoTime
deriving Repr, DecidableEq

/-- Model of `model.EvergreenTaskCost`: a single task within a project. -/
structure EvergreenTaskCost where
  Githash : String
  Name : String
  Distro : String
  BuildVariant : String
  TaskSeconds : Int
deriving Repr, DecidableEq

/-- Model of `model.EvergreenProjectCost`: name and tasks for a single project. -/
structure EvergreenProjectCost where
  Name : String
  Tasks : List EvergreenTaskCost
deriving Repr, DecidableEq

/-- Model of `model.EvergreenDistroCost`: a single distro in Evergreen. -/
structure EvergreenDistroCost where
  Name : String
  Provider : String
  InstanceType : String
  InstanceSeconds : Int
deriving Repr, DecidableEq

/-- Model of `model.EvergreenCost`: the projects and distros breakdowns. -/
structure EvergreenCost where
  Projects : List EvergreenProjectCost
  Distros : List EvergreenDistroCost
deriving Repr, DecidableEq

/-- Model of `model.ServiceItem`: item information for a single service (Go
float32 pricing fields carried as exact rationals). -/
structure ServiceItem where
  Name : String
  ItemType : String
  Launched : Int
  Terminated : Int
  FixedPrice : Rat
  AvgPrice : Rat
  AvgUptime : Rat
  TotalHours : Int
deriving Repr, DecidableEq

/-- Model of `model.AccountService`: a single service within an account, with its
priced total. -/
structure AccountService where
  Name : String
  Items : List ServiceItem
  Cost : Rat
deriving Repr, DecidableEq

/-- Model of `model.CloudAccount`: a named grouping of services; carries no cost
field of its own. -/
structure CloudAccount where
  Name : String
  Services : List AccountService
deriving Repr, DecidableEq

/-- Model of `model.CloudProvider`: account information for a single provider,
with its aggregate cost. -/
structure CloudProvider where
  Name : String
  Accounts : List CloudAccount
  Cost : Rat
deriving Repr, DecidableEq

/-- Model of `model.CostReport`: the top-level aggregate and unit of
persistence/export, including the unexported `populated` flag (the
`env` handle is modelled as explicit parameters of `Save`/`FindID`). -/
structure CostReport where
  ID : String
  Report : CostReportMetadata
  Evergreen : EvergreenCost
  Providers : List CloudProvider
  populated : Bool
deriving Repr, DecidableEq

/-- The Go zero value of `time.Time` rendered into calendar fields
(January 1, year 1). -/
def zeroGoTime : GoTime :=
  { year := 1, month := 1, day := 1, hour := 0, minute := 0, second := 0 }

/-- A freshly constructed `&model.CostReport{}`: every field at its Go
zero value, in particular `populated == false`. -/
def freshCostReport : CostReport :=
  { ID := ""
    Report := { Generated := zeroGoTime, Begin := zeroGoTime, End := zeroGoTime }
    Evergreen := { Projects := [], Distros := [] }
    Providers := []
    populated := false }

/-- Model of `CostReport.IsNil` (report struct file): returns the `populated`
flag directly. -/
def CostReport.IsNil (r : CostReport) : Bool := r.populated

/-- The sum of `AccountService.Cost` over the services of one account. -/
def accountCost (a : CloudAccount) : Rat :=
  (a.Services.map AccountService.Cost).sum

/-- Modelled from the spec: the provider-pricing step of the report
builder (`cost.CreateReport` and its billing collector) is not under
src/ — only the `CloudProvider` struct declaration is.  Per the spec's
data model ("`CloudProvider.Cost`: must equal the sum of
`AccountService.Cost` across every account under that provider"), the
builder prices each provider as the sum of its accounts' service
costs. -/
def priceProvider (name : String) (accounts : List CloudAccount) : CloudProvider :=
  { Name := name
    Accounts := accounts
    Cost := (accounts.map accountCost).sum }

/-- Modelled from the spec: `cost.CreateReport` is not under src/ (only
its caller `writeCostReport` is).  Per the spec's report-builder
contract, it assembles a fully populated `CostReport` whose
`Metadata.Begin`/`End` are exactly the requested window
`[start, start + duration)`, whose `Generated` is the build wall-clock
time, and whose providers are priced by `priceProvider`. -/
def CreateReport (id : String) (generated start : GoTime) (durSecs : Nat)
    (ev : EvergreenCost) (providers : List (String × List CloudAccount)) :
    CostReport :=
  { ID := id
    Report :=
      { Generated := generated, Begin := start, End := start.addSeconds durSecs }
    Evergreen := ev
    Providers := providers.map fun p => priceProvider p.1 p.2
    populated := true }

/-- Modelled from the spec: `CostConfig.GetDuration` is not under src/.
Per the spec, the on-demand `write` path uses the requested duration as
the effective window ("filename pattern
`{window-start:YYYY-MM-DD-HH-mm}.{duration}.json`" with the requested
duration, and a window matching the request exactly). -/
def GetDuration (requestedSecs : Nat) : Nat := requestedSecs

/-- Model of `writeCostReport` (`operations/cost.go`): resolves the duration,
builds the report for `[start, start + duration)`, and serializes it to
a file named by the report's window start formatted `2006-01-02-15-04`,
the duration, and `.json`.  Returns the filename and the exported
report. -/
def writeCostReport (id : String) (generated start : GoTime)
    (requestedSecs : Nat) (ev : EvergreenCost)
    (providers : List (String × List CloudAccount)) : String × CostReport :=
  let duration := GetDuration requestedSecs
  let report := CreateReport id generated start duration ev providers
  let fnDate := formatFileDate report.Report.Begin
  (fnDate ++ "." ++ durationString duration ++ ".json", report)

/-- The report document store: one document per report, keyed by
`CostReport.ID` (the `buildCostReports` collection). -/
abbrev ReportDB := List (String × CostReport)

/-- Mongo's `UpsertId`: replace the document under the key when one
exists, insert it otherwise. -/
def upsertId (db : ReportDB) (id : String) (r : CostReport) : ReportDB :=
  if db.any (fun p => p.1 == id) then
    db.map fun p => if p.1 == id then (id, r) else p
  else db ++ [(id, r)]

/-- The `change-info` diagnostic `Save` logs: whether a prior document
existed under the key (it never influences `Save`'s return value). -/
def upsertChangeInfo (db : ReportDB) (id : String) : Bool :=
  db.any fun p => p.1 == id

/-- Model of `CostReport.Save` (report struct file): acquires a session (failure
returned as-is), upserts the report by its ID, logs the change-info
diagnostic, and returns an error only when the store write itself
failed (a not-found store error is reported with its own message, any
other store error is wrapped). -/
def CostReport.Save (r : CostReport) (sessionErr : Option GoErr)
    (db : ReportDB) (storeErr : Option GoErr) : Except GoErr ReportDB :=
  match sessionErr with
  | some e => Except.error e
  | none =>
      match storeErr with
      | some e =>
          if ResultsNotFound (some e) then
            Except.error (GoErr.msg "could not find cost reporting document in the database")
          else
            Except.error (GoErr.wrap "problem saving cost reporting configuration" e)
      | none => Except.ok (upsertId db r.ID r)

/-- Model of `CostReport.FindID` (report struct file): acquires a session
(failure returned as-is), clears `populated`, runs the by-ID query, and
on a not-found result returns an error with `populated` still false;
otherwise it sets `populated` and returns nil (the source discards the
wrapped error of a non-not-found query failure without returning it,
which this model reproduces). -/
def CostReport.FindID (r : CostReport) (id : String) (sessionErr : Option GoErr)
    (queryResult : Except GoErr CostReport) : CostReport × Option GoErr :=
  match sessionErr with
  | some e => (r, some e)
  | none =>
      match queryResult with
      | Except.error e =>
          if ResultsNotFound (some e) then
            ({ r with populated := false },
             some (GoErr.msg ("could not find cost reporting document " ++ id ++
               " in the database")))
          else ({ r with populated := true }, none)
      | Except.ok doc => ({ doc with populated := true }, none)

/-- Model of `model.CedarConfig` (`model/config.go`), restricted to the fields
its `IsNil` touches (the Splunk/Slack/Flags payloads come from external
packages and are opaque to the claims). -/
structure CedarConfig where
  ID : String
  populated : Bool
deriving Repr, DecidableEq

/-- Model of `CedarConfig.IsNil` (`model/config.go`): true exactly when the
configuration is not populated. -/
def CedarConfig.IsNil (c : CedarConfig) : Bool := !c.populated

/-- The catcher of `getDistroCosts` ends empty exactly when every
processed lookup succeeded. -/
theorem fetchErrors_eq_nil_iff (order : List String)
    (lookup : String → Except GoErr DistroCost) :
    fetchErrors order lookup = [] ↔ ∀ id ∈ order, ∃ dc, lookup id = Except.ok dc := by
  unfold fetchErrors
  rw [List.filterMap_eq_nil_iff]
  constructor
  · intro h id hid
    have hnone := h id hid
    cases hl : lookup id with
    | ok dc => exact ⟨dc, rfl⟩
    | error e => rw [hl] at hnone; simp at hnone
  · intro h id hid
    obtain ⟨dc, hdc⟩ := h id hid
    rw [hdc]

/-- C1: For every fetch over a set of distro IDs, if any per-distro
lookup returns an error, `getDistroCosts` returns a nil result list
together with a single non-nil aggregated error, even when other
lookups in the same call succeeded; a non-empty result list is never
returned alongside an error. -/
theorem getDistroCosts_all_or_nothing (order : List String)
    (lookup : String → Except GoErr DistroCost)
    (hfail : ∃ id ∈ order, ∃ e, lookup id = Except.error e) :
    (getDistroCosts order lookup).1 = none
      ∧ (∃ e, (getDistroCosts order lookup).2 = some e)
      ∧ ∀ (order' : List String) (lookup' : String → Except GoErr DistroCost),
          (getDistroCosts order' lookup').1 = none
            ∨ (getDistroCosts order' lookup').2 = none := by
  have hne : fetchErrors order lookup ≠ [] := by
    intro hnil
    obtain ⟨id, hid, e, he⟩ := hfail
    obtain ⟨dc, hdc⟩ := (fetchErrors_eq_nil_iff order lookup).mp hnil id hid
    rw [he] at hdc
    exact Except.noConfusion hdc
  have hE : (fetchErrors order lookup).isEmpty = false := by
    cases hE' : (fetchErrors order lookup).isEmpty with
    | true => exact absurd (List.isEmpty_iff.mp hE') hne
    | false => rfl
  refine ⟨?_, ?_, ?_⟩
  · simp [getDistroCosts, hE]
  · exact ⟨GoErr.combined (fetchErrors order lookup), by simp [getDistroCosts, hE]⟩
  · intro order' lookup'
    cases hE' : (fetchErrors order' lookup').isEmpty with
    | true => exact Or.inr (by simp [getDistroCosts, hE'])
    | false => exact Or.inl (by simp [getDistroCosts, hE'])

/-- Closed instance of `getDistroCosts_all_or_nothing`: one failing
lookup among two discards the whole result set. -/
theorem getDistroCosts_all_or_nothing_witness :
    (∃ id ∈ ["a", "b"], ∃ e,
        (fun id => if id = "b" then (Except.error (GoErr.msg "boom") : Except GoErr DistroCost)
          else Except.ok ⟨id, "ec2", "", 120, 0⟩) id = Except.error e)
      ∧ (getDistroCosts ["a", "b"]
          (fun id => if id = "b" then (Except.error (GoErr.msg "boom") : Except GoErr DistroCost)
            else Except.ok ⟨id, "ec2", "", 120, 0⟩)).1 = none := by
  have h : ∃ id ∈ ["a", "b"], ∃ e,
      (fun id => if id = "b" then (Except.error (GoErr.msg "boom") : Except GoErr DistroCost)
        else Except.ok ⟨id, "ec2", "", 120, 0⟩) id = Except.error e :=
    ⟨"b", by simp, GoErr.msg "boom", by simp⟩
  exact ⟨h, (getDistroCosts_all_or_nothing _ _ h).1⟩

/-- C2: When a fetch returns a result list, a distro-cost record is in
that list exactly when some processed lookup produced it and its summed
time-taken is strictly positive; records with zero summed time never
appear. -/
theorem getDistroCosts_positive_filter (order : List String)
    (lookup : String → Except GoErr DistroCost) (l : List DistroCost)
    (hs : (getDistroCosts order lookup).1 = some l) (dc : DistroCost) :
    dc ∈ l ↔ (∃ id ∈ order, lookup id = Except.ok dc) ∧ 0 < dc.SumTimeTaken := by
  cases hE : (fetchErrors order lookup).isEmpty with
  | false => simp [getDistroCosts, hE] at hs
  | true =>
    simp [getDistroCosts, hE] at hs
    subst hs
    unfold fetchResults
    rw [List.mem_filterMap]
    constructor
    · rintro ⟨id, hid, hf⟩
      cases hl : lookup id with
      | error e => rw [hl] at hf; simp at hf
      | ok dc' =>
        rw [hl] at hf
        by_cases hpos : dc'.SumTimeTaken > 0
        · simp [hpos] at hf
          subst hf
          exact ⟨⟨id, hid, hl⟩, hpos⟩
        · simp [hpos] at hf
    · rintro ⟨⟨id, hid, hok⟩, hpos⟩
      exact ⟨id, hid, by rw [hok]; simp [hpos]⟩

/-- Closed instance of `getDistroCosts_positive_filter`, the spec's
scenario: distro set with usages 120s, 0s, 45s keeps exactly the two
positive-usage records. -/
theorem getDistroCosts_positive_filter_witness :
    (getDistroCosts ["a", "b", "c"]
        (fun id => Except.ok ⟨id, "p1", "",
          if id = "a" then 120 else if id = "c" then 45 else 0, 0⟩)).1
      = some [⟨"a", "p1", "", 120, 0⟩, ⟨"c", "p1", "", 45, 0⟩]
      ∧ ((⟨"b", "p1", "", 0, 0⟩ : DistroCost)
            ∈ [(⟨"a", "p1", "", 120, 0⟩ : DistroCost), ⟨"c", "p1", "", 45, 0⟩]
          ↔ (∃ id ∈ ["a", "b", "c"],
              (fun id => (Except.ok (⟨id, "p1", "",
                if id = "a" then 120 else if id = "c" then 45 else 0, 0⟩ : DistroCost) :
                  Except GoErr DistroCost)) id = Except.ok ⟨"b", "p1", "", 0, 0⟩)
            ∧ 0 < (⟨"b", "p1", "", 0, 0⟩ : DistroCost).SumTimeTaken) := by
  have hs : (getDistroCosts ["a", "b", "c"]
      (fun id => Except.ok ⟨id, "p1", "",
        if id = "a" then 120 else if id = "c" then 45 else 0, 0⟩)).1
      = some [⟨"a", "p1", "", 120, 0⟩, ⟨"c", "p1", "", 45, 0⟩] := by rfl
  exact ⟨hs, getDistroCosts_positive_filter _ _ _ hs _⟩

/-- C8: For a fixed mapping from distro IDs to lookup results, any two
processing orders of the same ID set give `getDistroCosts` outputs that
agree as sets: both fail or both succeed, and on success the two result
lists are permutations of each other. -/
theorem getDistroCosts_set_deterministic (order₁ order₂ : List String)
    (lookup : String → Except GoErr DistroCost) (hperm : order₁.Perm order₂) :
    ((getDistroCosts order₁ lookup).1 = none ↔ (getDistroCosts order₂ lookup).1 = none)
      ∧ ∀ l₁ l₂, (getDistroCosts order₁ lookup).1 = some l₁ →
          (getDistroCosts order₂ lookup).1 = some l₂ → l₁.Perm l₂ := by
  have herr : (fetchErrors order₁ lookup).Perm (fetchErrors order₂ lookup) :=
    hperm.filterMap _
  have hres : (fetchResults order₁ lookup).Perm (fetchResults order₂ lookup) :=
    hperm.filterMap _
  have hE : (fetchErrors order₁ lookup).isEmpty = (fetchErrors order₂ lookup).isEmpty := by
    cases h₁ : (fetchErrors order₁ lookup).isEmpty with
    | true =>
      have h1nil := List.isEmpty_iff.mp h₁
      have h2nil : fetchErrors order₂ lookup = [] := by
        rw [h1nil] at herr
        exact herr.symm.eq_nil
      rw [List.isEmpty_iff.mpr h2nil]
    | false =>
      cases h₂ : (fetchErrors order₂ lookup).isEmpty with
      | true =>
        have h2nil := List.isEmpty_iff.mp h₂
        rw [h2nil] at herr
        have h1true : (fetchErrors order₁ lookup).isEmpty = true :=
          List.isEmpty_iff.mpr herr.eq_nil
        rw [h₁] at h1true
        exact (Bool.false_ne_true h1true).elim
      | false => rfl
  cases h₂ : (fetchErrors order₂ lookup).isEmpty with
  | true =>
    rw [h₂] at hE
    constructor
    · simp [getDistroCosts, hE, h₂]
    · intro l₁ l₂ hs₁ hs₂
      simp [getDistroCosts, hE] at hs₁
      simp [getDistroCosts, h₂] at hs₂
      rw [← hs₁, ← hs₂]
      exact hres
  | false =>
    rw [h₂] at hE
    constructor
    · simp [getDistroCosts, hE, h₂]
    · intro l₁ l₂ hs₁ _
      simp [getDistroCosts, hE] at hs₁

/-- Closed instance of `getDistroCosts_set_deterministic`: two opposite
processing orders of the same two distros yield permuted result lists. -/
theorem getDistroCosts_set_deterministic_witness :
    (["a", "c"].Perm ["c", "a"])
      ∧ ∀ l₁ l₂,
          (getDistroCosts ["a", "c"]
            (fun id => Except.ok ⟨id, "p1", "", 10, 0⟩)).1 = some l₁ →
          (getDistroCosts ["c", "a"]
            (fun id => Except.ok ⟨id, "p1", "", 10, 0⟩)).1 = some l₂ →
          l₁.Perm l₂ := by
  have hperm : (["a", "c"] : List String).Perm ["c", "a"] := by decide
  exact ⟨hperm,
    (getDistroCosts_set_deterministic ["a", "c"] ["c", "a"] _ hperm).2⟩

/-- C7: If retrieving the distro-ID list fails,
`GetEvergreenDistrosData` returns a nil result with a wrapped error
that preserves the original cause, without performing any per-distro
lookup (its result does not depend on the lookup function). -/
theorem GetEvergreenDistrosData_fatal_distro_list (e : GoErr)
    (shuffle : List String → List String)
    (lookup lookup' : String → Except GoErr DistroCost) :
    GetEvergreenDistrosData (Except.error e) shuffle lookup
      = (none, some (GoErr.wrap "error in getting distroID in GetEvergreenDistrosData"
          (GoErr.wrap "error getting distros ids" e)))
      ∧ GetEvergreenDistrosData (Except.error e) shuffle lookup
          = GetEvergreenDistrosData (Except.error e) shuffle lookup'
      ∧ (GetEvergreenDistrosData (Except.error e) shuffle lookup).2.map GoErr.rootCause
          = some e.rootCause :=
  ⟨rfl, rfl, rfl⟩

/-- C9: `GetDistros` and `GetDistroCost` return an error whenever the
response carries a non-empty pagination link, and that pagination error
wins even when the underlying request error is also set (the link check
precedes the error check). -/
theorem pagination_checked_first (link : String) (hlink : link ≠ "")
    (reqErr : Option GoErr) (decodedDistros : Except GoErr (List Distro))
    (decodedCost : Except GoErr DistroCost) :
    GetDistros link reqErr decodedDistros
      = Except.error (GoErr.msg "/distros should not be a paginated route")
      ∧ GetDistroCost link reqErr decodedCost
          = Except.error (GoErr.msg "/cost/distro should not be a paginated route") := by
  constructor <;> simp [GetDistros, GetDistroCost, hlink]

/-- Closed instance of `pagination_checked_first`: with a pagination
link and a failing request, both routes surface the pagination error. -/
theorem pagination_checked_first_witness :
    (("next-page" : String) ≠ "")
      ∧ GetDistros "next-page" (some (GoErr.msg "request failed")) (Except.ok [])
          = Except.error (GoErr.msg "/distros should not be a paginated route")
      ∧ GetDistroCost "next-page" (some (GoErr.msg "request failed"))
            (Except.ok ⟨"d", "ec2", "", 1, 0⟩)
          = Except.error (GoErr.msg "/cost/distro should not be a paginated route") := by
  have hlink : ("next-page" : String) ≠ "" := by decide
  exact ⟨hlink,
    (pagination_checked_first "next-page" hlink (some (GoErr.msg "request failed"))
      (Except.ok []) (Except.ok ⟨"d", "ec2", "", 1, 0⟩)).1,
    (pagination_checked_first "next-page" hlink (some (GoErr.msg "request failed"))
      (Except.ok []) (Except.ok ⟨"d", "ec2", "", 1, 0⟩)).2⟩

/-- C3: Any two scheduler ticks within the same local-time hour compute
the same job ID, which is `brc-` followed by the tick time truncated to
the hour; submission is idempotent per hour bucket. -/
theorem collectJobID_idempotent_per_hour (t₁ t₂ : GoTime)
    (hy : t₁.year = t₂.year) (hm : t₁.month = t₂.month)
    (hd : t₁.day = t₂.day) (hh : t₁.hour = t₂.hour) :
    collectJobID t₁ = collectJobID t₂
      ∧ collectJobID t₁ = "brc-" ++ goTimeString (truncateToHour t₁) := by
  have ht : truncateToHour t₁ = truncateToHour t₂ := by
    cases t₁; cases t₂
    simp_all [truncateToHour]
  exact ⟨by simp [collectJobID, ht], rfl⟩

/-- Closed instance of `collectJobID_idempotent_per_hour`: two ticks 40
minutes apart inside the 09:00 hour share one job ID. -/
theorem collectJobID_idempotent_per_hour_witness :
    collectJobID ⟨2024, 3, 1, 9, 5, 0⟩ = collectJobID ⟨2024, 3, 1, 9, 45, 30⟩ :=
  (collectJobID_idempotent_per_hour ⟨2024, 3, 1, 9, 5, 0⟩ ⟨2024, 3, 1, 9, 45, 30⟩
    rfl rfl rfl rfl).1

/-- C4: In every built report, each cloud provider's `Cost` equals the
sum of `AccountService.Cost` over every service of every account under
that provider. -/
theorem cloudProvider_cost_tree (id : String) (generated start : GoTime)
    (durSecs : Nat) (ev : EvergreenCost)
    (providers : List (String × List CloudAccount)) (p : CloudProvider)
    (hp : p ∈ (CreateReport id generated start durSecs ev providers).Providers) :
    p.Cost = (p.Accounts.map (fun a => (a.Services.map AccountService.Cost).sum)).sum := by
  simp only [CreateReport, List.mem_map] at hp
  obtain ⟨q, _, hq⟩ := hp
  rw [← hq]
  rfl

/-- Closed instance of `cloudProvider_cost_tree`: a provider with two
accounts holding service costs 3, 4 and 5 is priced at 12. -/
theorem cloudProvider_cost_tree_witness :
    priceProvider "aws"
        [⟨"acct1", [⟨"s1", [], 3⟩, ⟨"s2", [], 4⟩]⟩, ⟨"acct2", [⟨"s3", [], 5⟩]⟩]
      ∈ (CreateReport "report-1" zeroGoTime zeroGoTime 7200 ⟨[], []⟩
          [("aws", [⟨"acct1", [⟨"s1", [], 3⟩, ⟨"s2", [], 4⟩]⟩,
            ⟨"acct2", [⟨"s3", [], 5⟩]⟩])]).Providers
      ∧ (priceProvider "aws"
          [⟨"acct1", [⟨"s1", [], 3⟩, ⟨"s2", [], 4⟩]⟩,
            ⟨"acct2", [⟨"s3", [], 5⟩]⟩]).Cost
        = (((priceProvider "aws"
            [⟨"acct1", [⟨"s1", [], 3⟩, ⟨"s2", [], 4⟩]⟩,
              ⟨"acct2", [⟨"s3", [], 5⟩]⟩]).Accounts.map
            (fun a => (a.Services.map AccountService.Cost).sum)).sum) := by
  have hp : priceProvider "aws"
      [⟨"acct1", [⟨"s1", [], 3⟩, ⟨"s2", [], 4⟩]⟩, ⟨"acct2", [⟨"s3", [], 5⟩]⟩]
      ∈ (CreateReport "report-1" zeroGoTime zeroGoTime 7200 ⟨[], []⟩
          [("aws", [⟨"acct1", [⟨"s1", [], 3⟩, ⟨"s2", [], 4⟩]⟩,
            ⟨"acct2", [⟨"s3", [], 5⟩]⟩])]).Providers := by
    simp [CreateReport]
  exact ⟨hp, cloudProvider_cost_tree _ _ _ _ _ _ _ hp⟩

/-- C5: The on-demand write names its export file by the report's
window start formatted `2006-01-02-15-04`, the duration, and `.json`,
and the exported report's `Metadata.Begin`/`End` are exactly the
requested window; in particular start 2024-03-01 with a 2h duration
yields `2024-03-01-00-00.2h0m0s.json`. -/
theorem writeCostReport_filename_window (id : String) (generated start : GoTime)
    (requestedSecs : Nat) (ev : EvergreenCost)
    (providers : List (String × List CloudAccount)) :
    (writeCostReport id generated start requestedSecs ev providers).1
        = formatFileDate start ++ "." ++ durationString requestedSecs ++ ".json"
      ∧ (writeCostReport id generated start requestedSecs ev providers).2.Report.Begin = start
      ∧ (writeCostReport id generated start requestedSecs ev providers).2.Report.End
          = start.addSeconds requestedSecs
      ∧ (writeCostReport id generated ⟨2024, 3, 1, 0, 0, 0⟩ 7200 ev providers).1
          = "2024-03-01-00-00.2h0m0s.json" := by
  refine ⟨rfl, rfl, rfl, ?_⟩
  have h : (writeCostReport id generated ⟨2024, 3, 1, 0, 0, 0⟩ 7200 ev providers).1
      = formatFileDate ⟨2024, 3, 1, 0, 0, 0⟩ ++ "." ++ durationString 7200 ++ ".json" := rfl
  rw [h]
  decide

/-- A store holding no document under the key filters to nothing on
that key. -/
theorem filter_key_eq_nil (db : ReportDB) (id : String)
    (h : db.any (fun p => p.1 == id) = false) :
    db.filter (fun p => p.1 == id) = [] := by
  rw [List.filter_eq_nil_iff]
  intro p hp
  have := (List.any_eq_false.mp h) p hp
  simpa using this

/-- The replace branch of `upsertId` on a store with unique keys leaves
exactly the new document under the key. -/
theorem upsert_replace_filter (db : ReportDB) (id : String) (r : CostReport)
    (hnd : (db.map Prod.fst).Nodup) (hmem : db.any (fun p => p.1 == id) = true) :
    (db.map (fun p => if p.1 == id then (id, r) else p)).filter (fun p => p.1 == id)
      = [(id, r)] := by
  induction db with
  | nil => simp at hmem
  | cons a tl ih =>
    rw [List.map_cons, List.nodup_cons] at hnd
    by_cases ha : (a.1 == id) = true
    · have haid : a.1 = id := by simpa using ha
      have htl : tl.map (fun p => if p.1 == id then (id, r) else p) = tl := by
        conv_rhs => rw [← List.map_id tl]
        apply List.map_congr_left
        intro p hp
        have hne : p.1 ≠ a.1 := by
          intro hpe
          exact hnd.1 (hpe ▸ List.mem_map_of_mem Prod.fst hp)
        have : (p.1 == id) = false := by
          simp [haid ▸ hne]
        simp [this]
      have htlf : tl.filter (fun p => p.1 == id) = [] := by
        apply filter_key_eq_nil
        rw [List.any_eq_false]
        intro p hp
        have hne : p.1 ≠ a.1 := by
          intro hpe
          exact hnd.1 (hpe ▸ List.mem_map_of_mem Prod.fst hp)
        simp [haid ▸ hne]
      simp only [List.map_cons, ha, if_pos, htl]
      rw [List.filter_cons_of_pos (by simp), htlf]
    · have hfa : (a.1 == id) = false := by simpa using ha
      have hmem' : tl.any (fun p => p.1 == id) = true := by
        rw [List.any_cons, hfa] at hmem
        simpa using hmem
      simp only [List.map_cons, hfa, if_neg, Bool.false_eq_true, not_false_iff]
      rw [List.filter_cons_of_neg (by simp [hfa]), ih hnd.2 hmem']

/-- C6: `CostReport.Save` upserts the report by its ID, leaving exactly
one document under that ID (the report itself); prior existence is only
a diagnostic and never produces an error — `Save` succeeds on any store
when the session and the write succeed, and fails only when one of them
failed. -/
theorem costReport_save_upsert (r : CostReport) (db : ReportDB)
    (hnd : (db.map Prod.fst).Nodup) :
    CostReport.Save r none db none = Except.ok (upsertId db r.ID r)
      ∧ (upsertId db r.ID r).filter (fun p => p.1 == r.ID) = [(r.ID, r)]
      ∧ (∀ db' : ReportDB, ∃ db'', CostReport.Save r none db' none = Except.ok db'')
      ∧ ∀ (sErr stErr : Option GoErr) (e : GoErr),
          CostReport.Save r sErr db stErr = Except.error e →
            sErr.isSome ∨ stErr.isSome := by
  refine ⟨rfl, ?_, fun db' => ⟨upsertId db' r.ID r, rfl⟩, ?_⟩
  · unfold upsertId
    cases hmem : db.any (fun p => p.1 == r.ID) with
    | true =>
      simp only [if_pos]
      exact upsert_replace_filter db r.ID r hnd hmem
    | false =>
      simp only [Bool.false_eq_true, if_neg, not_false_iff]
      rw [List.filter_append, filter_key_eq_nil db r.ID hmem]
      simp
  · intro sErr stErr e hsave
    cases sErr with
    | some e' => exact Or.inl rfl
    | none =>
      cases stErr with
      | some e' => exact Or.inr rfl
      | none => exact Except.noConfusion hsave

/-- Closed instance of `costReport_save_upsert`: saving over a store
that already holds a document under the same ID replaces it, leaving
one document. -/
theorem costReport_save_upsert_witness :
    (([("r1", freshCostReport)] : ReportDB).map Prod.fst).Nodup
      ∧ (upsertId [("r1", freshCostReport)]
            ({ freshCostReport with ID := "r1", populated := true } : CostReport).ID
            { freshCostReport with ID := "r1", populated := true }).filter
            (fun p => p.1 ==
              ({ freshCostReport with ID := "r1", populated := true } : CostReport).ID)
          = [(({ freshCostReport with ID := "r1", populated := true } : CostReport).ID,
              { freshCostReport with ID := "r1", populated := true })] := by
  have hnd : (([("r1", freshCostReport)] : ReportDB).map Prod.fst).Nodup := by
    simp
  exact ⟨hnd, (costReport_save_upsert
    { freshCostReport with ID := "r1", populated := true }
    [("r1", freshCostReport)] hnd).2.1⟩

/-- C10: `CostReport.IsNil` returns the `populated` flag directly —
false on a freshly constructed report and true after a successful
`FindID` — the opposite polarity of `CedarConfig.IsNil`, which is true
exactly when the configuration is not populated. -/
theorem isNil_polarity :
    freshCostReport.IsNil = false
      ∧ (∀ (r doc : CostReport) (id : String),
          ((r.FindID id none (Except.ok doc)).1).IsNil = true
            ∧ (r.FindID id none (Except.ok doc)).2 = none)
      ∧ (∀ r : CostReport, r.IsNil = r.populated)
      ∧ ∀ c : CedarConfig, c.IsNil = true ↔ c.populated = false := by
  refine ⟨rfl, fun r doc id => ⟨rfl, rfl⟩, fun r => rfl, fun c => ?_⟩
  cases c with
  | mk id pop => cases pop <;> simp [CedarConfig.IsNil]

end CedarCost
